import Mathlib

/-!
Verification development for `opus_tmx_parser.py`, a streaming extractor of
aligned sentence pairs from OPUS TMX archives.  The Python module keeps two
module-level globals, `LINES_LEFT` (the remaining line quota) and
`LANGUAGE_PAIRS` (the buffer of validated pairs), and appends matched lines to
two output files.  We embed that mutable state as the structure `PState` and
each function of the module as a state-passing Lean function.  Python
exceptions are modelled by `PyErr`; a raising function returns the state as it
stood when the exception escaped, paired with `some` error.

External libraries are modelled at their call boundary:
`unicodedata.category` / `unicodedata.name` / `str.isspace` become the fields
of a `Unicodedata` oracle, and `cld3.get_language` becomes a `Cld3` oracle, so
every theorem quantifies over all possible behaviours of those libraries.
-/

/-- Python exceptions that the embedded code can raise.  `parsingInterrupted`
is `xmltodict.ParsingInterrupted`, raised by the stream parser when the
per-item callback returns a falsy value.  `unboundLocalError` models the
undefined-local-variable failure. -/
inductive PyErr where
  | keyError
  | indexError
  | attributeError
  | zeroDivisionError
  | parsingInterrupted
  | unboundLocalError
deriving DecidableEq

/-- Oracle for the `unicodedata` module and the `str` character predicates used
by the source: `category` is `unicodedata.category`, `uname` is
`unicodedata.name(ch, None)`, and `isspace` is `str.isspace` on a single
character. -/
structure Unicodedata where
  category : Char → String
  uname : Char → Option String
  isspace : Char → Bool

/-- Oracle for the `cld3` language identifier: `get_language text` returns the
pair `(is_reliable, language)` of the result object. -/
structure Cld3 where
  get_language : String → Bool × String

/-- Python `dict` from language codes to segments, as built by
`_parse_language_pairs`; only lookup behaviour matters. -/
def LangDict := List (String × String)
deriving DecidableEq

/-- Lookup in a `LangDict` (`d[k]` / `d.get(k)` semantics). -/
def dict_get (d : LangDict) (k : String) : Option String :=
  (List.find? (fun p => p.1 == k) d).map (fun p => p.2)

/-- Assignment `d[k] = v`: a later assignment for the same key wins on lookup. -/
def dict_set (d : LangDict) (k v : String) : LangDict :=
  (k, v) :: List.filter (fun p => p.1 != k) d

/-- The bundle of parameters that the Python functions receive (source and
target language codes and the `line_write_len` chunk size) together with the
two external-library oracles. -/
structure Ctx where
  udata : Unicodedata
  cld3 : Cld3
  source_lang : String
  target_lang : String
  line_write_len : Int

/-- The module-level mutable state: `LINES_LEFT`, `LANGUAGE_PAIRS`, and the
lines so far appended to the two output files. -/
structure PState where
  lines_left : Int
  language_pairs : List LangDict
  source_file : List String
  target_file : List String
deriving DecidableEq

/-- Leading token of a Unicode character name, as `char_name.split()[0]`
computes it (names are space-separated nonempty words). -/
def first_word_aux : List Char → List Char
  | [] => []
  | c :: cs => if c = ' ' then [] else c :: first_word_aux cs

/-- The `char_name.split()[0]` of `_alphabet`. -/
def first_word (s : String) : String :=
  String.mk (first_word_aux (s.data.dropWhile (fun c => c = ' ')))

/-- Embeds `_alphabet`: scan the text for the first character whose Unicode
category is `Lu`, `Ll` or `Lo` and that has a name, and return the first word
of that name; `none` models Python's implicit `None` when no such character
exists. -/
def alphabet (U : Unicodedata) : List Char → Option String
  | [] => none
  | ch :: rest =>
    if U.category ch ∈ (["Lu", "Ll", "Lo"] : List String) then
      match U.uname ch with
      | some n => some (first_word n)
      | none => alphabet U rest
    else alphabet U rest

/-- The `CLD3_LANG_CODES` set of the source, as a list. -/
def cld3_lang_codes : List String :=
  ["eo", "co", "eu", "ta", "de", "mt", "ps", "te", "su", "uz", "zh-Latn",
   "ne", "nl", "sw", "sq", "hmn", "ja", "no", "mn", "so", "ko", "kk", "sl",
   "ig", "mr", "th", "zu", "ml", "hr", "bs", "lo", "sd", "cy", "hy", "uk",
   "pt", "lv", "iw", "cs", "vi", "jv", "be", "km", "mk", "tr", "fy", "am",
   "zh", "da", "sv", "fi", "ht", "af", "la", "id", "fil", "sm", "ca", "el",
   "ka", "sr", "it", "sk", "ru", "ru-Latn", "bg", "ny", "fa", "haw", "gl",
   "et", "ms", "gd", "bg-Latn", "ha", "is", "ur", "mi", "hi", "bn", "hi-Latn",
   "fr", "yi", "hu", "xh", "my", "tg", "ro", "ar", "lb", "el-Latn", "st",
   "ceb", "kn", "az", "si", "ky", "mg", "en", "gu", "es", "pl", "ja-Latn",
   "ga", "lt", "sn", "yo", "pa", "ku"]

/-- Embeds `_validate_language` (the `lru_cache` memoisation does not change
the value of this pure function of its arguments). -/
def validate_language (D : Cld3) (text language : String) : Bool :=
  if !(cld3_lang_codes.contains language) then true
  else
    let r := D.get_language text
    r.1 && (r.2 == language)

/-- Python `c.isalpha()`: the character's Unicode category is one of the
letter categories `Lu`, `Ll`, `Lt`, `Lm`, `Lo`. -/
def py_isalpha (U : Unicodedata) (c : Char) : Bool :=
  (["Lu", "Ll", "Lt", "Lm", "Lo"] : List String).contains (U.category c)

/-- The `nonalpha_count` of `_validate_sentence`:
`sum(1 for c in text if not (c.isalpha() or c.isspace()))`. -/
def nonalpha_count (U : Unicodedata) (text : String) : Nat :=
  (text.data.filter (fun c => !(py_isalpha U c || U.isspace c))).length

/-- Embeds `_validate_sentence`.  The ratio test
`nonalpha_count / len(text) < MAX_NONALPHA_RATIO` with
`MAX_NONALPHA_RATIO = .1` is embedded as the exact rational comparison
`10 * nonalpha_count < len(text)`; Python evaluates it in floating point, which
agrees with the exact comparison for all realistic sentence lengths.  The
division raises `ZeroDivisionError` when the text is empty, which the
embedding records explicitly. -/
def validate_sentence (U : Unicodedata) (D : Cld3) (text language : String) :
    Except PyErr Bool :=
  if !(alphabet U text.data == some "LATIN") || !(validate_language D text language) then
    Except.ok false
  else if text.data.length = 0 then Except.error PyErr.zeroDivisionError
  else Except.ok (decide (10 * nonalpha_count U text < text.data.length))

/-- The value computed by `_validate_sentence` on the paths where it returns
(proved below to be every path: the script pre-filter keeps the division from
ever seeing an empty text). -/
def validate_sentence_val (U : Unicodedata) (D : Cld3) (text language : String) : Bool :=
  (alphabet U text.data == some "LATIN") && validate_language D text language
    && decide (10 * nonalpha_count U text < text.data.length)

/-- Python `str.strip()` on a character list, removing leading and trailing
whitespace characters. -/
def py_strip (U : Unicodedata) (cs : List Char) : List Char :=
  List.reverse (List.dropWhile U.isspace (List.reverse (List.dropWhile U.isspace cs)))

/-- Embeds `_clean_line`: `text.replace('\n', ' ').strip()`. -/
def clean_line (U : Unicodedata) (s : String) : String :=
  String.mk (py_strip U (s.data.map (fun c => if c = '\n' then ' ' else c)))

/-- One `<tuv>` child of a translation unit as handed to the callback by
`xmltodict`: the `@xml:lang` attribute and the `seg` text, each possibly
absent (absence makes the corresponding subscript raise `KeyError`). -/
structure Tuv where
  xml_lang : Option String
  seg : Option String
deriving DecidableEq

/-- One item of the depth-3 stream: the `path` argument (list of
`(tag, attribute-dict-or-None)` pairs) and the `tree_dict`, reduced to its
`tuv` entry, `none` when the `tu` element has no `tuv` key. -/
structure TuItem where
  path : List (String × Option LangDict)
  tuv : Option (List Tuv)
deriving DecidableEq

/-- The dict-building loop of `_parse_language_pairs`:
`for elem in tree_dict['tuv']: language_pair[elem['@xml:lang']] = elem['seg']`.
Python evaluates the right-hand side `elem['seg']` before the subscript
`elem['@xml:lang']`; either missing key raises `KeyError`. -/
def build_language_pair : List Tuv → LangDict → Except PyErr LangDict
  | [], acc => Except.ok acc
  | e :: es, acc =>
    match e.seg with
    | none => Except.error PyErr.keyError
    | some v =>
      match e.xml_lang with
      | none => Except.error PyErr.keyError
      | some k => build_language_pair es (dict_set acc k v)

/-- The expression `path[2][1].get('tuid')` of the debug log in
`_parse_language_pairs`: a short path raises `IndexError`, a `None` attribute
dict raises `AttributeError` (both are caught at the call site). -/
def tuid_lookup (path : List (String × Option LangDict)) : Except PyErr (Option String) :=
  match path[2]? with
  | none => Except.error PyErr.indexError
  | some (_, none) => Except.error PyErr.attributeError
  | some (_, some attrs) => Except.ok (dict_get attrs "tuid")

/-- The generator `all(_validate_sentence(language_pair.get(lang, ''), lang)
for lang in (source_lang, target_lang))`, with Python's short-circuit order. -/
def validate_pair (cfg : Ctx) (lp : LangDict) : Except PyErr Bool := do
  let b ← validate_sentence cfg.udata cfg.cld3
    ((dict_get lp cfg.source_lang).getD "") cfg.source_lang
  if b then
    validate_sentence cfg.udata cfg.cld3
      ((dict_get lp cfg.target_lang).getD "") cfg.target_lang
  else pure false

/-- The write loop of `_write_language_pairs`: for each buffered pair, stop
once `LINES_LEFT <= 0`, otherwise append the cleaned source line, then the
cleaned target line, then decrement `LINES_LEFT`.  A missing key raises
`KeyError` after the source line was already appended, exactly as the two
sequential `write` calls would. -/
def write_loop (cfg : Ctx) : List LangDict → PState → PState × Option PyErr
  | [], st => (st, none)
  | p :: ps, st =>
    if st.lines_left ≤ 0 then (st, none)
    else
      match dict_get p cfg.source_lang with
      | none => (st, some PyErr.keyError)
      | some sv =>
        let st1 := { st with
          source_file := st.source_file ++ [clean_line cfg.udata sv] }
        match dict_get p cfg.target_lang with
        | none => (st1, some PyErr.keyError)
        | some tv =>
          write_loop cfg ps { st1 with
            target_file := st1.target_file ++ [clean_line cfg.udata tv],
            lines_left := st1.lines_left - 1 }

/-- Embeds `_write_language_pairs`: a no-op when `LINES_LEFT <= 0` (note the
buffer is NOT cleared on this path), otherwise run the write loop and, when it
finishes without an exception, clear `LANGUAGE_PAIRS` in full.  When the loop
raises, the exception propagates before the `del LANGUAGE_PAIRS[:]` line, so
the buffer keeps its contents. -/
def write_language_pairs (cfg : Ctx) (st : PState) : PState × Option PyErr :=
  if st.lines_left ≤ 0 then (st, none)
  else
    match write_loop cfg st.language_pairs st with
    | (st2, none) => ({ st2 with language_pairs := [] }, none)
    | (st2, some e) => (st2, some e)

/-- Embeds the callback `_parse_language_pairs`.  It returns the Python return
value (`False` stands for the falsy `None` returned when the quota is
exhausted, `True` otherwise) or the exception that escaped it.  All state
mutation happens after the points that can raise, so a raising run leaves the
state as it was at entry, matching the Python control flow. -/
def parse_language_pairs (cfg : Ctx) (st : PState) (item : TuItem) :
    PState × Except PyErr Bool :=
  if st.lines_left ≤ 0 then (st, Except.ok false)
  else
    match item.tuv with
    | none => (st, Except.error PyErr.keyError)
    | some tuvs =>
      match build_language_pair tuvs [] with
      | Except.error e => (st, Except.error e)
      | Except.ok lp =>
        match validate_pair cfg lp with
        | Except.error e => (st, Except.error e)
        | Except.ok valid =>
          let st1 := if valid then
              { st with language_pairs := st.language_pairs ++ [lp] }
            else st
          -- on rejection the debug log evaluates path[2][1].get('tuid');
          -- its IndexError / AttributeError are caught and ignored
          let _log := if valid then Except.ok none else tuid_lookup item.path
          if st1.language_pairs.length ≠ 0
              ∧ ((st1.language_pairs.length : Int) % cfg.line_write_len = 0
                 ∨ (st1.language_pairs.length : Int) ≥ st1.lines_left) then
            match write_language_pairs cfg st1 with
            | (st2, none) => (st2, Except.ok true)
            | (st2, some e) => (st2, Except.error e)
          else (st1, Except.ok true)

/-- The depth-3 walk of `xmltodict.parse`: invoke the callback once per item in
document order; a falsy return raises `ParsingInterrupted`, and any exception
from the callback aborts the remainder of the stream. -/
def parse_stream (cfg : Ctx) : List TuItem → PState → PState × Option PyErr
  | [], st => (st, none)
  | it :: its, st =>
    match parse_language_pairs cfg st it with
    | (st2, Except.error e) => (st2, some e)
    | (st2, Except.ok cont) =>
      if cont then parse_stream cfg its st2
      else (st2, some PyErr.parsingInterrupted)

/-- Embeds `_fetch_corpus` from the point the archive is available.  `none`
stands for the early returns of the catalog checks and the download (which
touch none of the pipeline state); `some items` is the decompressed stream.
`ParsingInterrupted` is caught and discarded, after which the final
`_write_language_pairs` flush runs; any other exception propagates and skips
the final flush. -/
def fetch_corpus (cfg : Ctx) (corpus : Option (List TuItem)) (st : PState) :
    PState × Option PyErr :=
  match corpus with
  | none => (st, none)
  | some items =>
    match parse_stream cfg items st with
    | (st2, none) => write_language_pairs cfg st2
    | (st2, some PyErr.parsingInterrupted) => write_language_pairs cfg st2
    | (st2, some e) => (st2, some e)

/-- The all-corpora loop of `main`: before each corpus, set `LINES_LEFT` to
`lines_per_corpus` when that is positive and to `args.max_lines` otherwise,
then run `_fetch_corpus`.  `lines_per_corpus` was computed once, before the
loop. -/
def main_loop (cfg : Ctx) (max_lines lines_per_corpus : Int) :
    List (Option (List TuItem)) → PState → PState × Option PyErr
  | [], st => (st, none)
  | c :: cs, st =>
    let st1 := { st with
      lines_left := if lines_per_corpus > 0 then lines_per_corpus else max_lines }
    match fetch_corpus cfg c st1 with
    | (st2, none) => main_loop cfg max_lines lines_per_corpus cs st2
    | (st2, some e) => (st2, some e)

/-- The state at the start of `main` after `LINES_LEFT = args.max_lines`:
empty buffer, and (with `keep_former_output_files` unset) empty output files. -/
def init_state (max_lines : Int) : PState :=
  { lines_left := max_lines, language_pairs := [], source_file := [], target_file := [] }

/-- Embeds `main` from the point the output files are prepared.  In all-corpora
mode, `corpora` is the per-corpus availability and stream (an empty list is the
falsy `_fetch_corpora` result, returning at once); `lines_per_corpus` is
`int(LINES_LEFT / len(corpora))`, a single truncating division computed before
the loop.  Without the all-corpora flag, the call site reads the local
variable `corpus`, which is never assigned on that path (the parsed argument
lives in `args.corpus`), so Python raises `UnboundLocalError` before any
extraction starts. -/
def main_run (cfg : Ctx) (max_lines : Int) (all_corpora : Bool)
    (corpora : List (Option (List TuItem))) : PState × Option PyErr :=
  let st0 := init_state max_lines
  if all_corpora then
    if corpora.isEmpty then (st0, none)
    else main_loop cfg max_lines (Int.tdiv max_lines corpora.length) corpora st0
  else
    (st0, some PyErr.unboundLocalError)

/-- A concrete `Unicodedata` oracle, honest on ASCII: letters are `Lu`/`Ll`
with names whose first word is `LATIN`, the space and common control
whitespace are whitespace, everything else is punctuation. -/
def ascii_udata : Unicodedata where
  category c :=
    if 'a' ≤ c ∧ c ≤ 'z' then "Ll"
    else if 'A' ≤ c ∧ c ≤ 'Z' then "Lu"
    else if c = ' ' then "Zs" else "Po"
  uname c :=
    if ('a' ≤ c ∧ c ≤ 'z') ∨ ('A' ≤ c ∧ c ≤ 'Z') then some "LATIN LETTER" else none
  isspace c := c == ' ' || c == '\t' || c == '\n' || c == '\r'

/-- A concrete `Cld3` oracle for witnesses. -/
def cld3_stub : Cld3 where
  get_language _ := (true, "en")

/-- Concrete context: language pair `xx`-`yy` (neither supported by cld3, so
the identifier check passes them), chunk size 5. -/
def cfg_xy : Ctx where
  udata := ascii_udata
  cld3 := cld3_stub
  source_lang := "xx"
  target_lang := "yy"
  line_write_len := 5

/-- A well-formed translation unit carrying a valid pair. -/
def tu_ok : TuItem where
  path := [("tmx", none), ("body", none), ("tu", some [("tuid", "1")])]
  tuv := some [{ xml_lang := some "xx", seg := some "abc" },
               { xml_lang := some "yy", seg := some "abd" }]

/-- A translation unit whose first `tuv` lacks the `@xml:lang` attribute. -/
def tu_missing_lang : TuItem where
  path := [("tmx", none), ("body", none), ("tu", some [("tuid", "2")])]
  tuv := some [{ xml_lang := none, seg := some "abc" },
               { xml_lang := some "yy", seg := some "abd" }]

/-- Three corpora of two valid units each. -/
def corpora3 : List (Option (List TuItem)) :=
  [some [tu_ok, tu_ok], some [tu_ok, tu_ok], some [tu_ok, tu_ok]]


/-- A `tuv` element carrying both the `@xml:lang` attribute and the `seg`
text, so that neither subscript raises. -/
def wf_tuv (e : Tuv) : Bool := e.xml_lang.isSome && e.seg.isSome

/-- A stream item whose `tree_dict` has a `tuv` list all of whose elements are
well-formed: exactly the items on which the callback's dict-building loop
cannot raise `KeyError`. -/
def wf_item (item : TuItem) : Bool :=
  match item.tuv with
  | none => false
  | some tuvs => tuvs.all wf_tuv

/-- The dict the building loop produces on a well-formed `tuv` list. -/
def built_pair : List Tuv → LangDict → LangDict
  | [], acc => acc
  | e :: es, acc => built_pair es (dict_set acc (e.xml_lang.getD "") (e.seg.getD ""))

/-- The `language_pair` dict a well-formed item contributes. -/
def item_pair (item : TuItem) : LangDict := built_pair (item.tuv.getD []) []

/-- A buffered pair as the callback admits it: both the source-language and the
target-language text pass `_validate_sentence`. -/
def valid_entry (cfg : Ctx) (p : LangDict) : Bool :=
  validate_sentence_val cfg.udata cfg.cld3
      ((dict_get p cfg.source_lang).getD "") cfg.source_lang
    && validate_sentence_val cfg.udata cfg.cld3
      ((dict_get p cfg.target_lang).getD "") cfg.target_lang

/-- The pair a stream item contributes to the buffer: present exactly when the
item is well-formed and its pair validates for both configured languages. -/
def item_valid (cfg : Ctx) (item : TuItem) : Option LangDict :=
  if wf_item item && valid_entry cfg (item_pair item) then some (item_pair item) else none

/-- All pairs of a stream that survive validation, in document order. -/
def valid_pairs (cfg : Ctx) (items : List TuItem) : List LangDict :=
  items.filterMap (item_valid cfg)

/-- The line the writer emits to the source file for a buffered pair. -/
def pair_src_line (cfg : Ctx) (p : LangDict) : String :=
  clean_line cfg.udata ((dict_get p cfg.source_lang).getD "")

/-- The line the writer emits to the target file for a buffered pair. -/
def pair_tgt_line (cfg : Ctx) (p : LangDict) : String :=
  clean_line cfg.udata ((dict_get p cfg.target_lang).getD "")

/-- The alignment invariant of the two output files: there is one list of
translation units such that the source file is exactly its source lines and
the target file exactly its target lines, so the Nth line of each file
originates from the same (Nth) unit. -/
def aligned_output (cfg : Ctx) (st : PState) : Prop :=
  ∃ ws : List LangDict,
    st.source_file = ws.map (pair_src_line cfg) ∧
    st.target_file = ws.map (pair_tgt_line cfg)

/-- The pipeline invariant: output files aligned, and every buffered pair
passed validation for both configured languages. -/
def good_state (cfg : Ctx) (st : PState) : Prop :=
  aligned_output cfg st ∧ ∀ p ∈ st.language_pairs, valid_entry cfg p = true

/-- A character that `_alphabet` would classify as Latin-script: letter
category and a Unicode name whose first word is `LATIN`. -/
def latin_letter (U : Unicodedata) (c : Char) : Prop :=
  U.category c ∈ (["Lu", "Ll", "Lo"] : List String) ∧
    ∃ n, U.uname c = some n ∧ first_word n = "LATIN"

/-- The per-corpus quota the code actually assigns: the truncating division
`int(max_lines / n)` computed once, or the full `max_lines` when that is not
positive. -/
def sub_quota_once (max_lines : Int) (n : Nat) : Int :=
  if 0 < Int.tdiv max_lines (n : Int) then Int.tdiv max_lines (n : Int) else max_lines

/-- The all-corpora loop re-expressed with one constant per-corpus quota,
used to state that the assigned quota never depends on what earlier corpora
consumed. -/
def main_loop_const (cfg : Ctx) (q : Int) :
    List (Option (List TuItem)) → PState → PState × Option PyErr
  | [], st => (st, none)
  | c :: cs, st =>
    match fetch_corpus cfg c { st with lines_left := q } with
    | (st2, none) => main_loop_const cfg q cs st2
    | (st2, some e) => (st2, some e)

/-- Modelled from the spec, claim C3 exactly as worded, for comparison with
`main_run`: the orchestrator would recompute the per-corpus sub-quota as
`floor(total_remaining / corpora_count)` at the time each corpus begins, give
the corpus the entire remaining total when that sub-quota is non-positive, and
afterwards subtract what the corpus wrote from the running total. -/
def main_loop_c3_claim (cfg : Ctx) (n : Nat) :
    List (Option (List TuItem)) → PState → PState × Option PyErr
  | [], st => (st, none)
  | c :: cs, st =>
    let sub := Int.tdiv st.lines_left (n : Int)
    let give := if 0 < sub then sub else st.lines_left
    match fetch_corpus cfg c { st with lines_left := give } with
    | (st2, none) =>
        main_loop_c3_claim cfg n cs
          { st2 with lines_left := st.lines_left - (give - st2.lines_left) }
    | (st2, some e) => (st2, some e)

/-- Modelled from the spec: the whole all-corpora run under claim C3's
reading of the sub-quota computation. -/
def main_run_c3_claim (cfg : Ctx) (max_lines : Int)
    (corpora : List (Option (List TuItem))) : PState × Option PyErr :=
  let st0 := init_state max_lines
  if corpora.isEmpty then (st0, none)
  else main_loop_c3_claim cfg corpora.length corpora st0

/-- A validated language pair, as `tu_ok` contributes it to the buffer. -/
def pair_xy : LangDict := [("yy", "abd"), ("xx", "abc")]

/-- A state whose quota is already exhausted while a pair is still buffered. -/
def st_quota0 : PState :=
  { lines_left := 0, language_pairs := [pair_xy], source_file := [], target_file := [] }

/-- Measure used for the quota bound: lines already written to the source file
plus lines the quota still allows.  Every pipeline operation leaves it
non-increasing. -/
def quota_bound (st : PState) : Nat := st.source_file.length + st.lines_left.toNat

/-- The tail of the callback after a unit was buffered or rejected: the flush
trigger of `_parse_language_pairs` (buffer non-empty, and at a chunk boundary
or at/over the remaining quota) followed by the flush itself.  This names the
last statements of the callback so that theorems can speak about the flush
decision in isolation. -/
def flush_check (cfg : Ctx) (st1 : PState) : PState × Except PyErr Bool :=
  if st1.language_pairs.length ≠ 0
      ∧ ((st1.language_pairs.length : Int) % cfg.line_write_len = 0
         ∨ (st1.language_pairs.length : Int) ≥ st1.lines_left) then
    match write_language_pairs cfg st1 with
    | (st2, none) => (st2, Except.ok true)
    | (st2, some e) => (st2, Except.error e)
  else (st1, Except.ok true)

/-- The script/language pre-checks of `_validate_sentence` succeed only on
nonempty text: `_alphabet` of the empty string is `None`. -/
theorem validate_val_ne_nil (U : Unicodedata) (D : Cld3) (text language : String)
    (h : validate_sentence_val U D text language = true) : text.data ≠ [] := by
  intro h0
  unfold validate_sentence_val at h
  rw [h0] at h
  simp [alphabet] at h

/-- `_validate_sentence` always returns (never raises): on every path that
reaches the ratio division the script pre-filter has already forced the text
to be nonempty. -/
theorem validate_sentence_eq_ok (U : Unicodedata) (D : Cld3) (text language : String) :
    validate_sentence U D text language =
      Except.ok (validate_sentence_val U D text language) := by
  unfold validate_sentence validate_sentence_val
  by_cases h1 : (alphabet U text.data == some "LATIN") = true
  · by_cases h2 : validate_language D text language = true
    · have hne : text.data ≠ [] := by
        intro h0
        rw [h0] at h1
        simp [alphabet] at h1
      have hlen : ¬ (text.data.length = 0) := fun h0 => hne (List.length_eq_zero.mp h0)
      rw [h1, h2, if_neg (by decide), if_neg hlen]
      rfl
    · rw [Bool.not_eq_true] at h2
      rw [h1, h2, if_pos (by decide)]
      rfl
  · rw [Bool.not_eq_true] at h1
    rw [h1]
    have hcond : (!false || !(validate_language D text language)) = true := rfl
    rw [if_pos hcond]
    rfl

/-- The `all(...)` validation of the callback always returns, and its value is
the conjunction of the two per-language verdicts. -/
theorem validate_pair_eq_ok (cfg : Ctx) (lp : LangDict) :
    validate_pair cfg lp = Except.ok (valid_entry cfg lp) := by
  unfold validate_pair valid_entry
  simp only [validate_sentence_eq_ok]
  by_cases h : validate_sentence_val cfg.udata cfg.cld3
      ((dict_get lp cfg.source_lang).getD "") cfg.source_lang = true
  · rw [h]
    rfl
  · rw [Bool.not_eq_true] at h
    rw [h]
    rfl

/-- A validated pair holds a source-language text, and cleaning it gives the
pair's source output line. -/
theorem valid_entry_get_src (cfg : Ctx) (p : LangDict) (h : valid_entry cfg p = true) :
    ∃ sv, dict_get p cfg.source_lang = some sv ∧
      clean_line cfg.udata sv = pair_src_line cfg p := by
  have h1 : validate_sentence_val cfg.udata cfg.cld3
      ((dict_get p cfg.source_lang).getD "") cfg.source_lang = true := by
    unfold valid_entry at h
    rw [Bool.and_eq_true] at h
    exact h.1
  have hne := validate_val_ne_nil _ _ _ _ h1
  match hv : dict_get p cfg.source_lang with
  | none => rw [hv] at hne; simp at hne
  | some sv => exact ⟨sv, rfl, by unfold pair_src_line; rw [hv]; rfl⟩

/-- A validated pair holds a target-language text, and cleaning it gives the
pair's target output line. -/
theorem valid_entry_get_tgt (cfg : Ctx) (p : LangDict) (h : valid_entry cfg p = true) :
    ∃ tv, dict_get p cfg.target_lang = some tv ∧
      clean_line cfg.udata tv = pair_tgt_line cfg p := by
  have h1 : validate_sentence_val cfg.udata cfg.cld3
      ((dict_get p cfg.target_lang).getD "") cfg.target_lang = true := by
    unfold valid_entry at h
    rw [Bool.and_eq_true] at h
    exact h.2
  have hne := validate_val_ne_nil _ _ _ _ h1
  match hv : dict_get p cfg.target_lang with
  | none => rw [hv] at hne; simp at hne
  | some tv => exact ⟨tv, rfl, by unfold pair_tgt_line; rw [hv]; rfl⟩

/-- Exact behaviour of the write loop on a buffer of validated pairs: it
writes the first `max(lines_left, 0)` pairs (or all of them, whichever is
fewer) as one source line and one target line each, in buffer order,
decrements the quota accordingly, and raises nothing. -/
theorem write_loop_eq (cfg : Ctx) (ps : List LangDict) :
    ∀ st : PState, (∀ p ∈ ps, valid_entry cfg p = true) →
      write_loop cfg ps st =
        ({ st with
            source_file := st.source_file
              ++ (ps.take st.lines_left.toNat).map (pair_src_line cfg),
            target_file := st.target_file
              ++ (ps.take st.lines_left.toNat).map (pair_tgt_line cfg),
            lines_left := st.lines_left - ((ps.take st.lines_left.toNat).length : Int) },
          none) := by
  induction ps with
  | nil =>
    intro st _
    obtain ⟨l, bufs, S, T⟩ := st
    simp only [write_loop, List.take_nil, List.map_nil, List.append_nil,
      List.length_nil, Nat.cast_zero, sub_zero]
  | cons p ps ih =>
    intro st h
    obtain ⟨l, bufs, S, T⟩ := st
    by_cases hl : l ≤ 0
    · have h0 : Int.toNat l = 0 := by omega
      rw [write_loop]
      simp only at hl ⊢
      rw [if_pos hl, h0]
      simp only [List.take_zero, List.map_nil, List.append_nil, List.length_nil,
        Nat.cast_zero, sub_zero]
    · obtain ⟨sv, hsv, hsrc⟩ := valid_entry_get_src cfg p (h p (by simp))
      obtain ⟨tv, htv, htgt⟩ := valid_entry_get_tgt cfg p (h p (by simp))
      have h2 : ∀ q ∈ ps, valid_entry cfg q = true := fun q hq => h q (by simp [hq])
      have hto : Int.toNat l = Int.toNat (l - 1) + 1 := by omega
      rw [write_loop]
      simp only at hl ⊢
      rw [if_neg hl]
      simp only [hsv, htv]
      rw [ih _ h2]
      simp only [hto, List.take_succ_cons, List.map_cons, List.length_cons,
        Prod.mk.injEq, PState.mk.injEq, hsrc, htgt, List.append_assoc,
        List.singleton_append, and_true, true_and]
      push_cast
      omega

/-- Exact behaviour of `_write_language_pairs` on a buffer of validated pairs:
a strict no-op when the quota is exhausted at entry (the buffer survives), and
otherwise a full flush of the quota-capped prefix followed by clearing the
whole buffer. -/
theorem write_language_pairs_eq (cfg : Ctx) (st : PState)
    (h : ∀ p ∈ st.language_pairs, valid_entry cfg p = true) :
    write_language_pairs cfg st =
      if st.lines_left ≤ 0 then (st, none)
      else
        ({ lines_left := st.lines_left
              - ((st.language_pairs.take st.lines_left.toNat).length : Int),
           language_pairs := [],
           source_file := st.source_file
              ++ (st.language_pairs.take st.lines_left.toNat).map (pair_src_line cfg),
           target_file := st.target_file
              ++ (st.language_pairs.take st.lines_left.toNat).map (pair_tgt_line cfg) },
         none) := by
  unfold write_language_pairs
  rw [write_loop_eq cfg _ _ h]

/-- The dict-building loop succeeds on a well-formed `tuv` list and produces
`built_pair`. -/
theorem build_language_pair_wf :
    ∀ (tuvs : List Tuv) (acc : LangDict), tuvs.all wf_tuv = true →
      build_language_pair tuvs acc = Except.ok (built_pair tuvs acc) := by
  intro tuvs
  induction tuvs with
  | nil => intro acc _; rfl
  | cons e es ih =>
    intro acc h
    rw [List.all_cons, Bool.and_eq_true] at h
    obtain ⟨xl, sg⟩ := e
    unfold wf_tuv at h
    match xl, sg, h.1 with
    | some k, some v, _ =>
      rw [build_language_pair, built_pair]
      exact ih _ h.2

/-- The dict-building loop raises `KeyError` as soon as a `tuv` element lacks
its language attribute or its segment. -/
theorem build_language_pair_not_wf :
    ∀ (tuvs : List Tuv) (acc : LangDict), tuvs.all wf_tuv = false →
      build_language_pair tuvs acc = Except.error PyErr.keyError := by
  intro tuvs
  induction tuvs with
  | nil => intro acc h; simp at h
  | cons e es ih =>
    intro acc h
    rw [List.all_cons, Bool.and_eq_false_iff] at h
    obtain ⟨xl, sg⟩ := e
    match xl, sg with
    | none, none => rfl
    | none, some v => rfl
    | some k, none => rfl
    | some k, some v =>
      rw [build_language_pair]
      refine ih _ ?_
      rcases h with h | h
      · simp [wf_tuv] at h
      · exact h

/-- The callback returns the falsy `None` at once when the quota is already
exhausted, touching nothing. -/
theorem parse_language_pairs_exhausted (cfg : Ctx) (st : PState) (item : TuItem)
    (hq : st.lines_left ≤ 0) :
    parse_language_pairs cfg st item = (st, Except.ok false) := by
  unfold parse_language_pairs
  rw [if_pos hq]

/-- The callback raises `KeyError` on a malformed unit (missing `tuv` key,
missing language attribute, or missing segment), leaving the state as it was. -/
theorem parse_language_pairs_not_wf (cfg : Ctx) (st : PState) (item : TuItem)
    (hq : 0 < st.lines_left) (hwf : wf_item item = false) :
    parse_language_pairs cfg st item = (st, Except.error PyErr.keyError) := by
  unfold parse_language_pairs
  rw [if_neg (by omega)]
  unfold wf_item at hwf
  match htv : item.tuv with
  | none => rfl
  | some tuvs =>
    rw [htv] at hwf
    simp only [] at hwf
    simp only []
    rw [build_language_pair_not_wf tuvs [] hwf]

/-- On a well-formed unit that buffers a validated pair, the callback appends
the pair and runs the flush check on the grown buffer. -/
theorem parse_language_pairs_valid_add (cfg : Ctx) (st : PState) (item : TuItem)
    (lp : LangDict) (hq : 0 < st.lines_left) (hv : item_valid cfg item = some lp) :
    parse_language_pairs cfg st item =
      flush_check cfg { st with language_pairs := st.language_pairs ++ [lp] } := by
  have hc : (wf_item item && valid_entry cfg (item_pair item)) = true := by
    unfold item_valid at hv
    by_cases hb : (wf_item item && valid_entry cfg (item_pair item)) = true
    · exact hb
    · rw [if_neg hb] at hv; cases hv
  have hlp : lp = item_pair item := by
    unfold item_valid at hv
    rw [if_pos hc] at hv
    injection hv with h2
    exact h2.symm
  rw [Bool.and_eq_true] at hc
  obtain ⟨hwf, hve⟩ := hc
  rw [hlp]
  unfold parse_language_pairs
  rw [if_neg (by omega)]
  unfold wf_item at hwf
  match htv : item.tuv with
  | none => rw [htv] at hwf; simp only [] at hwf; cases hwf
  | some tuvs =>
    rw [htv] at hwf
    simp only [] at hwf
    have hip : item_pair item = built_pair tuvs [] := by
      unfold item_pair
      rw [htv]
      rfl
    simp only [build_language_pair_wf tuvs [] hwf, validate_pair_eq_ok]
    rw [← hip, hve]
    rfl

/-- On a well-formed unit whose pair fails validation, the callback leaves the
buffer alone (the logging guard swallows the tuid lookup) and still runs the
flush check. -/
theorem parse_language_pairs_wf_reject (cfg : Ctx) (st : PState) (item : TuItem)
    (hq : 0 < st.lines_left) (hwf : wf_item item = true)
    (hv : item_valid cfg item = none) :
    parse_language_pairs cfg st item = flush_check cfg st := by
  have hve : valid_entry cfg (item_pair item) = false := by
    by_cases hb : valid_entry cfg (item_pair item) = true
    · exfalso
      unfold item_valid at hv
      rw [if_pos (by rw [hwf, hb]; rfl)] at hv
      cases hv
    · exact Bool.not_eq_true _ |>.mp hb
  unfold parse_language_pairs
  rw [if_neg (by omega)]
  unfold wf_item at hwf
  match htv : item.tuv with
  | none => rw [htv] at hwf; simp only [] at hwf; cases hwf
  | some tuvs =>
    rw [htv] at hwf
    simp only [] at hwf
    have hip : item_pair item = built_pair tuvs [] := by
      unfold item_pair
      rw [htv]
      rfl
    simp only [build_language_pair_wf tuvs [] hwf, validate_pair_eq_ok]
    rw [← hip, hve]
    rfl

/-- A pair admitted by `item_valid` passed validation for both languages. -/
theorem item_valid_entry (cfg : Ctx) (item : TuItem) (lp : LangDict)
    (hv : item_valid cfg item = some lp) : valid_entry cfg lp = true := by
  unfold item_valid at hv
  by_cases hb : (wf_item item && valid_entry cfg (item_pair item)) = true
  · rw [if_pos hb] at hv
    injection hv with h2
    rw [← h2]
    exact ((Bool.and_eq_true ..).mp hb).2
  · rw [if_neg hb] at hv
    cases hv

/-- The writer preserves the pipeline invariant and, on a validated buffer,
never raises. -/
theorem good_write (cfg : Ctx) (st : PState) (h : good_state cfg st) :
    good_state cfg (write_language_pairs cfg st).1
      ∧ (write_language_pairs cfg st).2 = none := by
  obtain ⟨⟨ws, hs, ht⟩, hval⟩ := h
  rw [write_language_pairs_eq cfg st hval]
  by_cases hl : st.lines_left ≤ 0
  · rw [if_pos hl]
    exact ⟨⟨⟨ws, hs, ht⟩, hval⟩, rfl⟩
  · rw [if_neg hl]
    refine ⟨⟨⟨ws ++ st.language_pairs.take st.lines_left.toNat, ?_, ?_⟩, ?_⟩, rfl⟩
    · rw [List.map_append, hs]
    · rw [List.map_append, ht]
    · intro p hp
      simp at hp

/-- The flush decision and flush preserve the pipeline invariant. -/
theorem good_flush_check (cfg : Ctx) (st1 : PState) (h : good_state cfg st1) :
    good_state cfg (flush_check cfg st1).1 := by
  unfold flush_check
  by_cases hc : st1.language_pairs.length ≠ 0
      ∧ ((st1.language_pairs.length : Int) % cfg.line_write_len = 0
         ∨ (st1.language_pairs.length : Int) ≥ st1.lines_left)
  · rw [if_pos hc]
    have hw := good_write cfg st1 h
    rcases hwe : write_language_pairs cfg st1 with ⟨st2, e⟩
    rw [hwe] at hw
    match e, hw with
    | none, hw => exact hw.1
  · rw [if_neg hc]
    exact h

/-- The per-unit callback preserves the pipeline invariant on every path. -/
theorem good_callback (cfg : Ctx) (st : PState) (item : TuItem)
    (h : good_state cfg st) :
    good_state cfg (parse_language_pairs cfg st item).1 := by
  by_cases hq : st.lines_left ≤ 0
  · rw [parse_language_pairs_exhausted cfg st item hq]
    exact h
  · have hq' : 0 < st.lines_left := by omega
    by_cases hwf : wf_item item = true
    · rcases hv : item_valid cfg item with _ | lp
      · rw [parse_language_pairs_wf_reject cfg st item hq' hwf hv]
        exact good_flush_check cfg st h
      · rw [parse_language_pairs_valid_add cfg st item lp hq' hv]
        apply good_flush_check
        refine ⟨h.1, ?_⟩
        intro p hp
        rw [List.mem_append] at hp
        rcases hp with hp | hp
        · exact h.2 p hp
        · rw [List.mem_singleton] at hp
          rw [hp]
          exact item_valid_entry cfg item lp hv
    · rw [Bool.not_eq_true] at hwf
      rw [parse_language_pairs_not_wf cfg st item hq' hwf]
      exact h

/-- The stream walk preserves the pipeline invariant. -/
theorem good_stream (cfg : Ctx) :
    ∀ (items : List TuItem) (st : PState), good_state cfg st →
      good_state cfg (parse_stream cfg items st).1 := by
  intro items
  induction items with
  | nil => intro st h; exact h
  | cons it its ih =>
    intro st h
    rw [parse_stream]
    have hcb := good_callback cfg st it h
    rcases hc : parse_language_pairs cfg st it with ⟨st2, r⟩
    rw [hc] at hcb
    match r with
    | Except.error e => exact hcb
    | Except.ok true => exact ih st2 hcb
    | Except.ok false => exact hcb

/-- One corpus run (stream plus final flush) preserves the pipeline
invariant. -/
theorem good_fetch (cfg : Ctx) (c : Option (List TuItem)) (st : PState)
    (h : good_state cfg st) : good_state cfg (fetch_corpus cfg c st).1 := by
  match c with
  | none => exact h
  | some items =>
    unfold fetch_corpus
    simp only []
    have hps := good_stream cfg items st h
    rcases hp : parse_stream cfg items st with ⟨st2, e⟩
    rw [hp] at hps
    match e with
    | none => exact (good_write cfg st2 hps).1
    | some PyErr.parsingInterrupted => exact (good_write cfg st2 hps).1
    | some PyErr.keyError => exact hps
    | some PyErr.indexError => exact hps
    | some PyErr.attributeError => exact hps
    | some PyErr.zeroDivisionError => exact hps
    | some PyErr.unboundLocalError => exact hps

/-- The all-corpora loop preserves the pipeline invariant. -/
theorem good_main_loop (cfg : Ctx) (max_lines lines_per_corpus : Int) :
    ∀ (corpora : List (Option (List TuItem))) (st : PState), good_state cfg st →
      good_state cfg (main_loop cfg max_lines lines_per_corpus corpora st).1 := by
  intro corpora
  induction corpora with
  | nil => intro st h; exact h
  | cons c cs ih =>
    intro st h
    rw [main_loop]
    have h1 : good_state cfg { st with
        lines_left := if lines_per_corpus > 0 then lines_per_corpus else max_lines } :=
      ⟨h.1, h.2⟩
    have hf := good_fetch cfg c _ h1
    rcases hc : fetch_corpus cfg c { st with
        lines_left := if lines_per_corpus > 0 then lines_per_corpus else max_lines }
      with ⟨st2, e⟩
    rw [hc] at hf
    match e with
    | none => exact ih st2 hf
    | some e => exact hf

/-- The writer never increases the quota measure: each written line pair costs
one unit of remaining quota. -/
theorem mono_write (cfg : Ctx) (st : PState)
    (h : ∀ p ∈ st.language_pairs, valid_entry cfg p = true) :
    quota_bound (write_language_pairs cfg st).1 ≤ quota_bound st := by
  rw [write_language_pairs_eq cfg st h]
  by_cases hl : st.lines_left ≤ 0
  · rw [if_pos hl]
  · rw [if_neg hl]
    unfold quota_bound
    simp only [List.length_append, List.length_map]
    have ht : (st.language_pairs.take st.lines_left.toNat).length ≤ st.lines_left.toNat :=
      List.length_take_le _ _
    omega

/-- The flush decision never increases the quota measure. -/
theorem mono_flush_check (cfg : Ctx) (st1 : PState)
    (h : ∀ p ∈ st1.language_pairs, valid_entry cfg p = true) :
    quota_bound (flush_check cfg st1).1 ≤ quota_bound st1 := by
  unfold flush_check
  by_cases hc : st1.language_pairs.length ≠ 0
      ∧ ((st1.language_pairs.length : Int) % cfg.line_write_len = 0
         ∨ (st1.language_pairs.length : Int) ≥ st1.lines_left)
  · rw [if_pos hc]
    have hm := mono_write cfg st1 h
    rcases hw : write_language_pairs cfg st1 with ⟨st2, e⟩
    rw [hw] at hm
    match e with
    | none => exact hm
    | some e' => exact hm
  · rw [if_neg hc]

/-- The callback never increases the quota measure. -/
theorem mono_callback (cfg : Ctx) (st : PState) (item : TuItem)
    (h : good_state cfg st) :
    quota_bound (parse_language_pairs cfg st item).1 ≤ quota_bound st := by
  by_cases hq : st.lines_left ≤ 0
  · rw [parse_language_pairs_exhausted cfg st item hq]
  · have hq' : 0 < st.lines_left := by omega
    by_cases hwf : wf_item item = true
    · rcases hv : item_valid cfg item with _ | lp
      · rw [parse_language_pairs_wf_reject cfg st item hq' hwf hv]
        exact mono_flush_check cfg st h.2
      · rw [parse_language_pairs_valid_add cfg st item lp hq' hv]
        have hval : ∀ p ∈ st.language_pairs ++ [lp], valid_entry cfg p = true := by
          intro p hp
          rw [List.mem_append] at hp
          rcases hp with hp | hp
          · exact h.2 p hp
          · rw [List.mem_singleton] at hp
            rw [hp]
            exact item_valid_entry cfg item lp hv
        exact mono_flush_check cfg _ hval
    · rw [Bool.not_eq_true] at hwf
      rw [parse_language_pairs_not_wf cfg st item hq' hwf]

/-- The stream walk never increases the quota measure. -/
theorem mono_stream (cfg : Ctx) :
    ∀ (items : List TuItem) (st : PState), good_state cfg st →
      quota_bound (parse_stream cfg items st).1 ≤ quota_bound st := by
  intro items
  induction items with
  | nil => intro st _; exact le_refl _
  | cons it its ih =>
    intro st h
    rw [parse_stream]
    have hcb := good_callback cfg st it h
    have hm := mono_callback cfg st it h
    rcases hc : parse_language_pairs cfg st it with ⟨st2, r⟩
    rw [hc] at hcb hm
    match r with
    | Except.error e => exact hm
    | Except.ok true => exact le_trans (ih st2 hcb) hm
    | Except.ok false => exact hm

/-- One corpus run never increases the quota measure. -/
theorem mono_fetch (cfg : Ctx) (c : Option (List TuItem)) (st : PState)
    (h : good_state cfg st) :
    quota_bound (fetch_corpus cfg c st).1 ≤ quota_bound st := by
  match c with
  | none => exact le_refl _
  | some items =>
    unfold fetch_corpus
    simp only []
    have hps := good_stream cfg items st h
    have hm := mono_stream cfg items st h
    rcases hp : parse_stream cfg items st with ⟨st2, e⟩
    rw [hp] at hps hm
    match e with
    | none => exact le_trans (mono_write cfg st2 hps.2) hm
    | some PyErr.parsingInterrupted => exact le_trans (mono_write cfg st2 hps.2) hm
    | some PyErr.keyError => exact hm
    | some PyErr.indexError => exact hm
    | some PyErr.attributeError => exact hm
    | some PyErr.zeroDivisionError => exact hm
    | some PyErr.unboundLocalError => exact hm

/-- Source-file growth bound of the all-corpora loop: every corpus adds at
most the per-corpus quota the loop assigns it. -/
theorem main_loop_len (cfg : Ctx) (max_lines lines_per_corpus : Int) :
    ∀ (corpora : List (Option (List TuItem))) (st : PState), good_state cfg st →
      (main_loop cfg max_lines lines_per_corpus corpora st).1.source_file.length ≤
        st.source_file.length + corpora.length
          * (if lines_per_corpus > 0 then lines_per_corpus else max_lines).toNat := by
  intro corpora
  induction corpora with
  | nil =>
    intro st _
    simp [main_loop]
  | cons c cs ih =>
    intro st h
    rw [main_loop]
    have h1 : good_state cfg { st with
        lines_left := if lines_per_corpus > 0 then lines_per_corpus else max_lines } :=
      ⟨h.1, h.2⟩
    have hg := good_fetch cfg c _ h1
    have hm := mono_fetch cfg c _ h1
    rcases hc : fetch_corpus cfg c { st with
        lines_left := if lines_per_corpus > 0 then lines_per_corpus else max_lines }
      with ⟨st2, e⟩
    rw [hc] at hg hm
    unfold quota_bound at hm
    simp only [List.length_cons, Nat.succ_mul]
    match e with
    | none =>
      have h2 := ih st2 hg
      simp only [] at hm ⊢
      omega
    | some e =>
      simp only [] at hm ⊢
      omega

/-- `valid_pairs` unfolds over a buffered unit. -/
theorem valid_pairs_cons_some (cfg : Ctx) (it : TuItem) (its : List TuItem)
    (lp : LangDict) (hv : item_valid cfg it = some lp) :
    valid_pairs cfg (it :: its) = lp :: valid_pairs cfg its := by
  unfold valid_pairs
  rw [List.filterMap_cons, hv]

/-- `valid_pairs` unfolds over a rejected unit. -/
theorem valid_pairs_cons_none (cfg : Ctx) (it : TuItem) (its : List TuItem)
    (hv : item_valid cfg it = none) :
    valid_pairs cfg (it :: its) = valid_pairs cfg its := by
  unfold valid_pairs
  rw [List.filterMap_cons, hv]

/-- When the flush trigger does not fire, the callback tail returns the state
unchanged and continues. -/
theorem flush_check_none (cfg : Ctx) (st1 : PState)
    (hC : ¬(st1.language_pairs.length ≠ 0
      ∧ ((st1.language_pairs.length : Int) % cfg.line_write_len = 0
         ∨ (st1.language_pairs.length : Int) ≥ st1.lines_left))) :
    flush_check cfg st1 = (st1, Except.ok true) := by
  unfold flush_check
  rw [if_neg hC]

/-- When the flush trigger fires and the flush returns cleanly, the callback
tail returns the flushed state and continues. -/
theorem flush_check_flush (cfg : Ctx) (st1 st2 : PState)
    (hC : st1.language_pairs.length ≠ 0
      ∧ ((st1.language_pairs.length : Int) % cfg.line_write_len = 0
         ∨ (st1.language_pairs.length : Int) ≥ st1.lines_left))
    (hw : write_language_pairs cfg st1 = (st2, none)) :
    flush_check cfg st1 = (st2, Except.ok true) := by
  unfold flush_check
  rw [if_pos hC, hw]

/-- The walk steps through a callback that returned `True`. -/
theorem parse_stream_step (cfg : Ctx) (it : TuItem) (its : List TuItem)
    (st st1 : PState)
    (hcb : parse_language_pairs cfg st it = (st1, Except.ok true)) :
    parse_stream cfg (it :: its) st = parse_stream cfg its st1 := by
  rw [parse_stream, hcb]
  rfl

/-- Once the quota is exhausted the walk stops at the very next unit: the
callback's falsy return makes the parser raise `ParsingInterrupted`, and
nothing further changes. -/
theorem parse_stream_exhausted (cfg : Ctx) (items : List TuItem) (st : PState)
    (hq : st.lines_left ≤ 0) :
    parse_stream cfg items st =
      (st, if items.isEmpty then none else some PyErr.parsingInterrupted) := by
  match items with
  | [] => rfl
  | it :: its =>
    rw [parse_stream, parse_language_pairs_exhausted cfg st it hq]
    rfl

/-- A flush whose whole buffer fits in the remaining quota writes the buffer
in full. -/
theorem write_flush_all (cfg : Ctx) (st : PState)
    (hbuf : ∀ p ∈ st.language_pairs, valid_entry cfg p = true)
    (hl : 0 < st.lines_left)
    (hlen : (st.language_pairs.length : Int) ≤ st.lines_left) :
    write_language_pairs cfg st =
      ({ lines_left := st.lines_left - (st.language_pairs.length : Int),
         language_pairs := [],
         source_file := st.source_file ++ st.language_pairs.map (pair_src_line cfg),
         target_file := st.target_file ++ st.language_pairs.map (pair_tgt_line cfg) },
       none) := by
  rw [write_language_pairs_eq cfg st hbuf, if_neg (by omega)]
  have ht : st.language_pairs.take st.lines_left.toNat = st.language_pairs :=
    List.take_of_length_le (by omega)
  rw [ht]

/-- One corpus step: a callback that returned `True` commutes with the whole
corpus run. -/
theorem fetch_step (cfg : Ctx) (it : TuItem) (its : List TuItem) (st st1 : PState)
    (hcb : parse_language_pairs cfg st it = (st1, Except.ok true)) :
    fetch_corpus cfg (some (it :: its)) st = fetch_corpus cfg (some its) st1 := by
  unfold fetch_corpus
  simp only []
  rw [parse_stream_step cfg it its st st1 hcb]

/-- Gluing an already-flushed prefix `A` onto the characterization of the rest
of the run. -/
theorem glue_state (l : Int) (A V : List LangDict) (S T : List String)
    (f g : LangDict → String) (hA : (A.length : Int) ≤ l) (hl : 0 < l) :
    ({ lines_left := (l - (A.length : Int)) - ((min (l - (A.length : Int)).toNat V.length : Nat) : Int),
       language_pairs := [],
       source_file := (S ++ A.map f) ++ (V.take (l - (A.length : Int)).toNat).map f,
       target_file := (T ++ A.map g) ++ (V.take (l - (A.length : Int)).toNat).map g } : PState)
      =
    { lines_left := l - ((min l.toNat (A ++ V).length : Nat) : Int),
      language_pairs := [],
      source_file := S ++ ((A ++ V).take l.toNat).map f,
      target_file := T ++ ((A ++ V).take l.toNat).map g } := by
  have h1 : (l - (A.length : Int)).toNat = l.toNat - A.length := by omega
  have h2 : (A ++ V).take l.toNat = A ++ V.take (l.toNat - A.length) := by
    rw [List.take_append_eq_append_take, List.take_of_length_le (by omega)]
  simp only [PState.mk.injEq, h1, h2, List.map_append, List.append_assoc,
    List.length_append, and_true, true_and]
  omega

/-- A corpus run started with the quota already spent is a no-op: the walk is
interrupted at the first unit (or the stream is empty), the interruption is
caught, and the final flush declines to write or clear anything. -/
theorem fetch_exhausted (cfg : Ctx) (items : List TuItem) (st : PState)
    (hq : st.lines_left ≤ 0) :
    fetch_corpus cfg (some items) st = (st, none) := by
  unfold fetch_corpus
  simp only []
  rw [parse_stream_exhausted cfg items st hq]
  match items with
  | [] =>
    rw [List.isEmpty_nil, if_pos (show (true = true) from rfl)]
    simp only []
    unfold write_language_pairs
    rw [if_pos hq]
  | it2 :: its2 =>
    rw [List.isEmpty_cons, if_neg (show ¬(false = true) from by decide)]
    simp only []
    unfold write_language_pairs
    rw [if_pos hq]

/-- Exact behaviour of one corpus run (`_fetch_corpus` from the stream on) on
a well-formed stream, starting from a state whose buffered pairs are fewer
than the positive remaining quota: the run completes without an uncaught
exception, the buffer ends empty, and the two output files receive exactly
the quota-capped prefix of the buffered-plus-surviving pairs, one line each,
in document order. -/
theorem fetch_corpus_run (cfg : Ctx) :
    ∀ (items : List TuItem) (st : PState),
      items.all wf_item = true →
      (∀ p ∈ st.language_pairs, valid_entry cfg p = true) →
      0 < st.lines_left →
      (st.language_pairs.length : Int) < st.lines_left →
      fetch_corpus cfg (some items) st =
        ({ lines_left := st.lines_left
             - ((min st.lines_left.toNat (st.language_pairs ++ valid_pairs cfg items).length : Nat) : Int),
           language_pairs := [],
           source_file := st.source_file
             ++ ((st.language_pairs ++ valid_pairs cfg items).take st.lines_left.toNat).map
                  (pair_src_line cfg),
           target_file := st.target_file
             ++ ((st.language_pairs ++ valid_pairs cfg items).take st.lines_left.toNat).map
                  (pair_tgt_line cfg) },
         none) := by
  intro items
  induction items with
  | nil =>
    intro st hwf hbuf hq hlt
    obtain ⟨l, B, S, T⟩ := st
    simp only [] at hbuf hq hlt ⊢
    unfold fetch_corpus
    simp only []
    rw [show parse_stream cfg [] ⟨l, B, S, T⟩ = (⟨l, B, S, T⟩, none) from rfl]
    simp only []
    rw [write_flush_all cfg ⟨l, B, S, T⟩ hbuf hq (by simp only []; omega)]
    have h0 : valid_pairs cfg ([] : List TuItem) = [] := rfl
    have hmin : min l.toNat B.length = B.length := by omega
    have htake : B.take l.toNat = B := List.take_of_length_le (by omega)
    rw [h0, List.append_nil, hmin, htake]
  | cons it its ih =>
    intro st hwf hbuf hq hlt
    rw [List.all_cons, Bool.and_eq_true] at hwf
    obtain ⟨hwf1, hwfs⟩ := hwf
    obtain ⟨l, B, S, T⟩ := st
    simp only [] at hbuf hq hlt ⊢
    rcases hv : item_valid cfg it with _ | lp
    · -- the unit is rejected: the buffer is unchanged
      have hcbeq := parse_language_pairs_wf_reject cfg ⟨l, B, S, T⟩ it
        (by simp only []; omega) hwf1 hv
      rw [valid_pairs_cons_none cfg it its hv]
      by_cases hC : (⟨l, B, S, T⟩ : PState).language_pairs.length ≠ 0
          ∧ (((⟨l, B, S, T⟩ : PState).language_pairs.length : Int) % cfg.line_write_len = 0
             ∨ ((⟨l, B, S, T⟩ : PState).language_pairs.length : Int)
                 ≥ (⟨l, B, S, T⟩ : PState).lines_left)
      · -- chunk-boundary flush of the old buffer, then the rest of the run
        have hw := write_flush_all cfg ⟨l, B, S, T⟩ hbuf hq (by simp only []; omega)
        have hcb : parse_language_pairs cfg ⟨l, B, S, T⟩ it =
            (⟨l - (B.length : Int), [], S ++ B.map (pair_src_line cfg),
              T ++ B.map (pair_tgt_line cfg)⟩, Except.ok true) := by
          rw [hcbeq]
          exact flush_check_flush cfg _ _ hC hw
        rw [fetch_step cfg it its _ _ hcb]
        rw [ih _ hwfs (by intro p hp; simp at hp) (by simp only [List.length_nil]; omega)
          (by simp only [List.length_nil]; omega)]
        simp only []
        rw [Prod.mk.injEq]
        refine ⟨?_, rfl⟩
        exact glue_state l B (valid_pairs cfg its) S T _ _ (by omega) hq
      · -- no flush: state unchanged, continue
        have hcb : parse_language_pairs cfg ⟨l, B, S, T⟩ it =
            (⟨l, B, S, T⟩, Except.ok true) := by
          rw [hcbeq]
          exact flush_check_none cfg _ hC
        rw [fetch_step cfg it its _ _ hcb]
        exact ih _ hwfs hbuf hq hlt
    · -- the unit is buffered
      have hcbeq := parse_language_pairs_valid_add cfg ⟨l, B, S, T⟩ it lp
        (by simp only []; omega) hv
      rw [valid_pairs_cons_some cfg it its lp hv]
      have hlen1 : ((B ++ [lp]).length : Int) ≤ l := by
        rw [List.length_append, List.length_singleton]
        push_cast
        omega
      have hbuf1 : ∀ p ∈ B ++ [lp], valid_entry cfg p = true := by
        intro p hp
        rw [List.mem_append] at hp
        rcases hp with hp | hp
        · exact hbuf p hp
        · rw [List.mem_singleton] at hp
          rw [hp]
          exact item_valid_entry cfg it lp hv
      have hWeq : B ++ lp :: valid_pairs cfg its = (B ++ [lp]) ++ valid_pairs cfg its := by
        rw [List.append_assoc, List.singleton_append]
      by_cases hC : (⟨l, B ++ [lp], S, T⟩ : PState).language_pairs.length ≠ 0
          ∧ (((⟨l, B ++ [lp], S, T⟩ : PState).language_pairs.length : Int) % cfg.line_write_len = 0
             ∨ ((⟨l, B ++ [lp], S, T⟩ : PState).language_pairs.length : Int)
                 ≥ (⟨l, B ++ [lp], S, T⟩ : PState).lines_left)
      · -- flush fires on the grown buffer
        have hw := write_flush_all cfg ⟨l, B ++ [lp], S, T⟩ hbuf1 hq
          (by simp only []; exact hlen1)
        have hcb : parse_language_pairs cfg ⟨l, B, S, T⟩ it =
            (⟨l - ((B ++ [lp]).length : Int), [], S ++ (B ++ [lp]).map (pair_src_line cfg),
              T ++ (B ++ [lp]).map (pair_tgt_line cfg)⟩, Except.ok true) := by
          rw [hcbeq]
          exact flush_check_flush cfg _ _ hC hw
        rw [fetch_step cfg it its _ _ hcb]
        by_cases hrem : 0 < l - ((B ++ [lp]).length : Int)
        · -- quota not yet exhausted: the rest of the run continues
          rw [ih _ hwfs (by intro p hp; simp at hp) (by simp only [List.length_nil]; omega)
            (by simp only [List.length_nil]; omega)]
          simp only []
          rw [Prod.mk.injEq]
          refine ⟨?_, rfl⟩
          rw [hWeq]
          exact glue_state l (B ++ [lp]) (valid_pairs cfg its) S T _ _ hlen1 hq
        · -- the flush consumed the quota exactly: the walk is interrupted at
          -- the next unit (or the stream ends) and the final flush is a no-op
          rw [fetch_exhausted cfg its _ (by simp only []; omega)]
          have hlB : ((B ++ [lp]).length : Int) = l := by
            rw [List.length_append, List.length_singleton] at hrem ⊢
            push_cast at hrem ⊢
            omega
          have htk : (B ++ lp :: valid_pairs cfg its).take l.toNat = B ++ [lp] := by
            rw [hWeq, List.take_append_eq_append_take,
              List.take_of_length_le (by omega),
              show l.toNat - (B ++ [lp]).length = 0 by omega, List.take_zero,
              List.append_nil]
          have hmn : (min l.toNat (B ++ lp :: valid_pairs cfg its).length : Nat)
              = (B ++ [lp]).length := by
            rw [hWeq, List.length_append (B ++ [lp]) (valid_pairs cfg its)]
            omega
          rw [Prod.mk.injEq]
          refine ⟨?_, rfl⟩
          rw [htk, hmn]
      · -- no flush: the grown buffer rides along
        have hcb : parse_language_pairs cfg ⟨l, B, S, T⟩ it =
            (⟨l, B ++ [lp], S, T⟩, Except.ok true) := by
          rw [hcbeq]
          exact flush_check_none cfg _ hC
        have hlt1 : ((B ++ [lp]).length : Int) < l := by
          by_contra hge
          apply hC
          refine ⟨by simp, Or.inr (by simp only []; omega)⟩
        rw [fetch_step cfg it its _ _ hcb]
        rw [ih _ hwfs hbuf1 (by simp only []; omega) (by simp only []; exact hlt1)]
        simp only []
        rw [hWeq]

/-- Without the all-corpora flag, `main` dies on the unassigned local
`corpus` before any extraction state is touched. -/
theorem main_run_false (cfg : Ctx) (max_lines : Int)
    (corpora : List (Option (List TuItem))) :
    main_run cfg max_lines false corpora =
      (init_state max_lines, some PyErr.unboundLocalError) := rfl

/-- All-corpora mode with no corpora available returns at once. -/
theorem main_run_true_nil (cfg : Ctx) (max_lines : Int) :
    main_run cfg max_lines true [] = (init_state max_lines, none) := rfl

/-- All-corpora mode with at least one corpus runs the per-corpus loop with
the once-computed truncating division. -/
theorem main_run_true_cons (cfg : Ctx) (max_lines : Int)
    (c : Option (List TuItem)) (cs : List (Option (List TuItem))) :
    main_run cfg max_lines true (c :: cs) =
      main_loop cfg max_lines (Int.tdiv max_lines ((c :: cs).length : Int)) (c :: cs)
        (init_state max_lines) := rfl

/-- The loop of `main` with the once-computed sub-quota equals the loop that
assigns every corpus the same constant quota `sub_quota_once`. -/
theorem main_loop_const_eq (cfg : Ctx) (max_lines : Int) (n : Nat) :
    ∀ (corpora : List (Option (List TuItem))) (st : PState),
      main_loop cfg max_lines (Int.tdiv max_lines (n : Int)) corpora st =
        main_loop_const cfg (sub_quota_once max_lines n) corpora st := by
  intro corpora
  induction corpora with
  | nil => intro st; rfl
  | cons c cs ih =>
    intro st
    rw [main_loop, main_loop_const]
    unfold sub_quota_once
    simp only [gt_iff_lt]
    rcases hc : fetch_corpus cfg c
        { st with lines_left := if 0 < Int.tdiv max_lines (n : Int)
            then Int.tdiv max_lines (n : Int) else max_lines } with ⟨st2, e⟩
    match e with
    | none => exact ih st2
    | some e => rfl

/-- The flush decision on a validated buffer never surfaces an exception and
always hands back `True` for the walk to continue. -/
theorem flush_check_ok (cfg : Ctx) (st1 : PState)
    (hbuf : ∀ p ∈ st1.language_pairs, valid_entry cfg p = true) :
    ∃ st2, flush_check cfg st1 = (st2, Except.ok true) := by
  by_cases hC : st1.language_pairs.length ≠ 0
      ∧ ((st1.language_pairs.length : Int) % cfg.line_write_len = 0
         ∨ (st1.language_pairs.length : Int) ≥ st1.lines_left)
  · have hw := write_language_pairs_eq cfg st1 hbuf
    by_cases hl : st1.lines_left ≤ 0
    · rw [if_pos hl] at hw
      exact ⟨st1, flush_check_flush cfg st1 st1 hC hw⟩
    · rw [if_neg hl] at hw
      exact ⟨_, flush_check_flush cfg st1 _ hC hw⟩
  · exact ⟨st1, flush_check_none cfg st1 hC⟩

/-- A text on which `_alphabet` answers `LATIN` contains a Latin-script
letter. -/
theorem alphabet_latin (U : Unicodedata) :
    ∀ (l : List Char), alphabet U l = some "LATIN" → ∃ c ∈ l, latin_letter U c := by
  intro l
  induction l with
  | nil => intro h; cases h
  | cons c cs ih =>
    intro h
    rw [alphabet] at h
    by_cases hcat : U.category c ∈ (["Lu", "Ll", "Lo"] : List String)
    · rw [if_pos hcat] at h
      rcases hn : U.uname c with _ | nm
      · rw [hn] at h
        simp only [] at h
        obtain ⟨d, hd, hl⟩ := ih h
        exact ⟨d, by simp [hd], hl⟩
      · rw [hn] at h
        simp only [] at h
        injection h with h
        exact ⟨c, by simp, hcat, nm, hn, h⟩
    · rw [if_neg hcat] at h
      obtain ⟨d, hd, hl⟩ := ih h
      exact ⟨d, by simp [hd], hl⟩

/-- C1: for every run of the pipeline (any oracles, languages, chunk size,
quota, mode and corpora), each translation unit written appends exactly one
line to the source file and one to the target file in the same relative
order: there is a single list of written units of which the source file is
exactly the source lines and the target file exactly the target lines, so the
Nth line of each file originates from the same unit, across arbitrarily many
corpora and flush batches. -/
theorem c1_alignment (cfg : Ctx) (max_lines : Int) (all_corpora : Bool)
    (corpora : List (Option (List TuItem)))
    (hL : 0 < cfg.line_write_len) :
    aligned_output cfg (main_run cfg max_lines all_corpora corpora).1 := by
  cases all_corpora with
  | false =>
    rw [main_run_false]
    exact ⟨[], rfl, rfl⟩
  | true =>
    cases corpora with
    | nil =>
      rw [main_run_true_nil]
      exact ⟨[], rfl, rfl⟩
    | cons c cs =>
      rw [main_run_true_cons]
      exact (good_main_loop cfg max_lines _ (c :: cs) (init_state max_lines)
        ⟨⟨[], rfl, rfl⟩, fun p hp => absurd hp (List.not_mem_nil p)⟩).1

/-- Witness for C1 at a concrete run: three corpora of two valid units each,
maximum 2, chunk size 5. -/
theorem c1_alignment_witness :
    aligned_output cfg_xy (main_run cfg_xy 2 true corpora3).1 :=
  c1_alignment cfg_xy 2 true corpora3 (by decide)

/-- C2 counterexample: 3 corpora of 2 valid units each, maximum line count 2,
all-corpora mode.  The computed sub-quota `int(2 / 3)` is zero, so each corpus
is given the full maximum, and 6 line pairs are written in total, exceeding
the configured maximum of 2 — the claim's quota bound fails in all-corpora
mode. -/
theorem c2_cex :
    (main_run cfg_xy 2 true corpora3).1.source_file.length = 6
      ∧ ¬ (((main_run cfg_xy 2 true corpora3).1.source_file.length : Int) ≤ 2) := by
  decide

/-- C2 (amended): the total number of line pairs written is at most the
configured maximum in single-corpus mode (where the run fails before writing
anything, see C9), and in all-corpora mode whenever the once-computed
per-corpus sub-quota `int(max_lines / corpora_count)` is positive; when that
sub-quota is zero the fallback hands every corpus the full maximum, and the
total may reach `corpora_count * max_lines` (see the counterexample). -/
theorem c2_quota (cfg : Ctx) (max_lines : Int) (all_corpora : Bool)
    (corpora : List (Option (List TuItem)))
    (hL : 0 < cfg.line_write_len) (hm : 0 ≤ max_lines)
    (hcase : all_corpora = false ∨ 0 < Int.tdiv max_lines (corpora.length : Int)) :
    ((main_run cfg max_lines all_corpora corpora).1.source_file.length : Int)
      ≤ max_lines := by
  cases all_corpora with
  | false =>
    rw [main_run_false]
    simpa [init_state] using hm
  | true =>
    have hdiv : 0 < Int.tdiv max_lines (corpora.length : Int) := by
      rcases hcase with h | h
      · cases h
      · exact h
    cases corpora with
    | nil =>
      rw [main_run_true_nil]
      simpa [init_state] using hm
    | cons c cs =>
      rw [main_run_true_cons]
      have hlen := main_loop_len cfg max_lines
        (Int.tdiv max_lines (((c :: cs).length : Nat) : Int)) (c :: cs) (init_state max_lines)
        ⟨⟨[], rfl, rfl⟩, fun p hp => absurd hp (List.not_mem_nil p)⟩
      rw [if_pos hdiv] at hlen
      have hN : (0 : Int) < (((c :: cs).length : Nat) : Int) := by
        exact_mod_cast Nat.succ_pos cs.length
      have hmul : (((c :: cs).length : Nat) : Int)
          * Int.tdiv max_lines (((c :: cs).length : Nat) : Int) ≤ max_lines := by
        rw [Int.tdiv_eq_ediv hm (le_of_lt hN), mul_comm]
        exact Int.ediv_mul_le max_lines (ne_of_gt hN)
      have hcast : (((c :: cs).length
            * (Int.tdiv max_lines (((c :: cs).length : Nat) : Int)).toNat : Nat) : Int)
          = (((c :: cs).length : Nat) : Int)
            * Int.tdiv max_lines (((c :: cs).length : Nat) : Int) := by
        push_cast [Int.toNat_of_nonneg (le_of_lt hdiv)]
        ring
      have h0 : (init_state max_lines).source_file.length = 0 := rfl
      rw [h0, Nat.zero_add] at hlen
      calc ((main_loop cfg max_lines (Int.tdiv max_lines (((c :: cs).length : Nat) : Int))
            (c :: cs) (init_state max_lines)).1.source_file.length : Int)
          ≤ (((c :: cs).length
              * (Int.tdiv max_lines (((c :: cs).length : Nat) : Int)).toNat : Nat) : Int) := by
            exact_mod_cast hlen
        _ = _ := hcast
        _ ≤ max_lines := hmul

/-- Witness for C2 (amended): 3 corpora of 2 valid units each with maximum 9:
the sub-quota is 3 and at most 9 lines are written. -/
theorem c2_quota_witness :
    ((main_run cfg_xy 9 true corpora3).1.source_file.length : Int) ≤ 9 :=
  c2_quota cfg_xy 9 true corpora3 (by decide) (by decide) (Or.inr (by decide))

/-- C3 counterexample: with 3 corpora of 2 valid units each and a remaining
quota of 2, the code writes 6 line pairs, while the orchestrator the claim
describes (sub-quota recomputed as `floor(total_remaining / corpora_count)`
when each corpus begins, non-positive sub-quota replaced by the entire
remaining total) would write only 2: after the first corpus consumes the
whole total, the remaining corpora would receive 0, so the claimed
computation does not describe the code. -/
theorem c3_cex :
    (main_run cfg_xy 2 true corpora3).1.source_file.length = 6
      ∧ (main_run_c3_claim cfg_xy 2 corpora3).1.source_file.length = 2 := by
  decide

/-- C3 (amended): in all-corpora mode the orchestrator computes the
per-corpus sub-quota once, before the loop, as the truncating division
`int(max_lines / corpora_count)`; every corpus is then given that same
sub-quota when it is positive and the entire original maximum otherwise, so
with 3 corpora and a maximum of 2 every corpus receives 2 and none is skipped
with a zero allotment. -/
theorem c3_sub_quota (cfg : Ctx) (max_lines : Int)
    (corpora : List (Option (List TuItem))) :
    main_run cfg max_lines true corpora =
      if corpora.isEmpty then (init_state max_lines, none)
      else main_loop_const cfg (sub_quota_once max_lines corpora.length) corpora
        (init_state max_lines) := by
  cases corpora with
  | nil => rfl
  | cons c cs =>
    rw [main_run_true_cons, main_loop_const_eq, List.isEmpty_cons,
      if_neg (show ¬(false = true) from by decide)]

/-- C4 counterexample: a stream whose first unit lacks its `@xml:lang`
attribute followed by a perfectly good unit.  The `KeyError` from the
malformed unit is not caught anywhere: the whole walk aborts, the good unit is
never processed, nothing is written, and the error propagates out of the
corpus run — the malformed unit is not "dropped with the walk continuing" as
the claim states. -/
theorem c4_cex :
    fetch_corpus cfg_xy (some [tu_missing_lang, tu_ok]) (init_state 5) =
      (init_state 5, some PyErr.keyError) := by
  decide

/-- C4 (amended): only a missing identifier is tolerated — the per-unit
callback finishes and the walk continues on every well-formed unit whatever
its `path` carries (the debug log's `tuid` lookup is guarded); but a unit
with a missing `tuv` key, a missing language attribute or a missing segment
raises `KeyError`, which aborts the remainder of the walk with the state
unchanged and propagates upward. -/
theorem c4_malformed (cfg : Ctx) (st : PState) (item : TuItem)
    (rest : List TuItem) (hq : 0 < st.lines_left)
    (hbuf : ∀ p ∈ st.language_pairs, valid_entry cfg p = true) :
    (wf_item item = true →
      ∃ st1, parse_language_pairs cfg st item = (st1, Except.ok true))
    ∧ (wf_item item = false →
        parse_stream cfg (item :: rest) st = (st, some PyErr.keyError)) := by
  constructor
  · intro hwf
    rcases hv : item_valid cfg item with _ | lp
    · obtain ⟨st2, hst2⟩ := flush_check_ok cfg st hbuf
      exact ⟨st2, by rw [parse_language_pairs_wf_reject cfg st item hq hwf hv]; exact hst2⟩
    · have hbuf1 : ∀ p ∈ st.language_pairs ++ [lp], valid_entry cfg p = true := by
        intro p hp
        rw [List.mem_append] at hp
        rcases hp with hp | hp
        · exact hbuf p hp
        · rw [List.mem_singleton] at hp
          rw [hp]
          exact item_valid_entry cfg item lp hv
      obtain ⟨st2, hst2⟩ := flush_check_ok cfg
        { st with language_pairs := st.language_pairs ++ [lp] } hbuf1
      exact ⟨st2, by rw [parse_language_pairs_valid_add cfg st item lp hq hv]; exact hst2⟩
  · intro hwf
    rw [parse_stream, parse_language_pairs_not_wf cfg st item hq hwf]

/-- Witness for C4 (amended): the well-formed unit is processed and the walk
continues; the unit missing its language attribute kills the walk. -/
theorem c4_malformed_witness :
    (wf_item tu_ok = true →
      ∃ st1, parse_language_pairs cfg_xy (init_state 5) tu_ok = (st1, Except.ok true))
    ∧ (wf_item tu_ok = false →
        parse_stream cfg_xy (tu_ok :: [tu_missing_lang]) (init_state 5) =
          (init_state 5, some PyErr.keyError)) :=
  c4_malformed cfg_xy (init_state 5) tu_ok [tu_missing_lang] (by decide)
    (fun p hp => absurd hp (List.not_mem_nil p))

/-- C5: when the stream holds more valid pairs than the quota, the quota runs
out mid-stream; the walk then stops through the callback's falsy return, the
resulting `ParsingInterrupted` is caught and not propagated (the run returns
no error), and counting the final flush every buffered pair up to the quota
is written exactly once: the two output files are exactly the first
`max_lines` surviving pairs, one aligned line each, with nothing lost,
nothing duplicated and the buffer left empty. -/
theorem c5_interruption (cfg : Ctx) (items : List TuItem) (q : Int)
    (hL : 0 < cfg.line_write_len) (hq : 0 < q)
    (hwf : items.all wf_item = true)
    (hex : q < ((valid_pairs cfg items).length : Int)) :
    fetch_corpus cfg (some items) (init_state q) =
      ({ lines_left := 0, language_pairs := [],
         source_file := ((valid_pairs cfg items).take q.toNat).map (pair_src_line cfg),
         target_file := ((valid_pairs cfg items).take q.toNat).map (pair_tgt_line cfg) },
       none) := by
  rw [fetch_corpus_run cfg items (init_state q) hwf
    (fun p hp => absurd hp (List.not_mem_nil p)) hq
    (by simp [init_state]; omega)]
  simp only [init_state, List.nil_append]
  have hmin : min q.toNat (valid_pairs cfg items).length = q.toNat := by omega
  rw [hmin, Prod.mk.injEq, PState.mk.injEq]
  refine ⟨⟨by omega, rfl, rfl, rfl⟩, rfl⟩

/-- Witness for C5: three valid units against a quota of 2 — exactly the
first two pairs are written and no error escapes. -/
theorem c5_interruption_witness :
    fetch_corpus cfg_xy (some [tu_ok, tu_ok, tu_ok]) (init_state 2) =
      ({ lines_left := 0, language_pairs := [],
         source_file := ((valid_pairs cfg_xy [tu_ok, tu_ok, tu_ok]).take (Int.toNat 2)).map
           (pair_src_line cfg_xy),
         target_file := ((valid_pairs cfg_xy [tu_ok, tu_ok, tu_ok]).take (Int.toNat 2)).map
           (pair_tgt_line cfg_xy) }, none) :=
  c5_interruption cfg_xy [tu_ok, tu_ok, tu_ok] 2 (by decide) (by decide) (by decide)
    (by decide)

/-- C6: after every add of a validated unit to the buffer, a flush is
triggered exactly when the buffer's size is a positive multiple of the
configured flush chunk size or has reached the remaining quota; otherwise the
callback leaves the grown buffer in place and no flush happens on that add. -/
theorem c6_flush_iff (cfg : Ctx) (st : PState) (item : TuItem) (lp : LangDict)
    (hq : 0 < st.lines_left) (hv : item_valid cfg item = some lp) :
    parse_language_pairs cfg st item =
      (if (0 < (st.language_pairs ++ [lp]).length
            ∧ ((st.language_pairs ++ [lp]).length : Int) % cfg.line_write_len = 0)
          ∨ ((st.language_pairs ++ [lp]).length : Int) ≥ st.lines_left then
        match write_language_pairs cfg
            { st with language_pairs := st.language_pairs ++ [lp] } with
        | (st2, none) => (st2, Except.ok true)
        | (st2, some e) => (st2, Except.error e)
      else ({ st with language_pairs := st.language_pairs ++ [lp] }, Except.ok true)) := by
  rw [parse_language_pairs_valid_add cfg st item lp hq hv]
  unfold flush_check
  have hpos : 0 < (st.language_pairs ++ [lp]).length := by
    rw [List.length_append, List.length_singleton]
    omega
  refine if_congr ?_ rfl rfl
  constructor
  · rintro ⟨hne, hm | hg⟩
    · exact Or.inl ⟨hpos, hm⟩
    · exact Or.inr hg
  · rintro (⟨_, hm⟩ | hg)
    · exact ⟨Nat.pos_iff_ne_zero.mp hpos, Or.inl hm⟩
    · exact ⟨Nat.pos_iff_ne_zero.mp hpos, Or.inr hg⟩

/-- Witness for C6 at a concrete add: buffer grows to one pair, chunk size 5,
quota 5 — neither trigger holds, so no flush happens on this add. -/
theorem c6_flush_iff_witness :
    parse_language_pairs cfg_xy (init_state 5) tu_ok =
      (if (0 < ((init_state 5).language_pairs ++ [pair_xy]).length
            ∧ ((((init_state 5).language_pairs ++ [pair_xy]).length : Int))
                % cfg_xy.line_write_len = 0)
          ∨ ((((init_state 5).language_pairs ++ [pair_xy]).length : Int))
              ≥ (init_state 5).lines_left then
        match write_language_pairs cfg_xy
            { init_state 5 with
              language_pairs := (init_state 5).language_pairs ++ [pair_xy] } with
        | (st2, none) => (st2, Except.ok true)
        | (st2, some e) => (st2, Except.error e)
      else ({ init_state 5 with
              language_pairs := (init_state 5).language_pairs ++ [pair_xy] },
            Except.ok true)) :=
  c6_flush_iff cfg_xy (init_state 5) tu_ok pair_xy (by decide) (by decide)

/-- C7 counterexample: a flush invoked with the quota already exhausted and a
pair still buffered returns without clearing the buffer — the early return of
`_write_language_pairs` sits before `del LANGUAGE_PAIRS[:]`, so the buffer is
not "cleared on every flush". -/
theorem c7_cex :
    write_language_pairs cfg_xy st_quota0 = (st_quota0, none)
      ∧ st_quota0.language_pairs ≠ [] := by
  decide

/-- C7 (amended): a flush entered with positive remaining quota (and a buffer
of validated pairs) clears the buffer in full and raises nothing; a flush
entered with the quota already exhausted is a strict no-op that leaves the
buffered pairs in place. -/
theorem c7_flush_clears (cfg : Ctx) (st : PState)
    (hbuf : ∀ p ∈ st.language_pairs, valid_entry cfg p = true) :
    (0 < st.lines_left →
      (write_language_pairs cfg st).1.language_pairs = []
        ∧ (write_language_pairs cfg st).2 = none)
    ∧ (st.lines_left ≤ 0 → write_language_pairs cfg st = (st, none)) := by
  constructor
  · intro hl
    rw [write_language_pairs_eq cfg st hbuf, if_neg (by omega)]
    exact ⟨rfl, rfl⟩
  · intro hl
    rw [write_language_pairs_eq cfg st hbuf, if_pos hl]

/-- Witness for C7 (amended): with quota 3 and one buffered pair the flush
clears the buffer. -/
theorem c7_flush_clears_witness :
    (0 < (3 : Int) →
      (write_language_pairs cfg_xy ⟨3, [pair_xy], [], []⟩).1.language_pairs = []
        ∧ (write_language_pairs cfg_xy ⟨3, [pair_xy], [], []⟩).2 = none)
    ∧ ((3 : Int) ≤ 0 → write_language_pairs cfg_xy ⟨3, [pair_xy], [], []⟩ =
        (⟨3, [pair_xy], [], []⟩, none)) :=
  c7_flush_clears cfg_xy ⟨3, [pair_xy], [], []⟩ (by decide)

/-- C8 counterexample: the ten-character text `abcdefghi.` has exactly one
character that is neither alphabetic nor whitespace, so its non-alphanumeric
fraction is exactly 10%; the script check sees Latin and the language check
passes, yet the validator rejects it — the comparison in the code is strict,
so the boundary case "fraction equals exactly 10%" is rejected, not
accepted. -/
theorem c8_cex :
    nonalpha_count ascii_udata "abcdefghi." = 1
      ∧ ("abcdefghi." : String).data.length = 10
      ∧ alphabet ascii_udata ("abcdefghi." : String).data = some "LATIN"
      ∧ validate_language cld3_stub "abcdefghi." "xx" = true
      ∧ validate_sentence_val ascii_udata cld3_stub "abcdefghi." "xx" = false := by
  decide

/-- C8 (amended): the sentence validator rejects a text whenever the fraction
of characters that are neither alphabetic nor whitespace is at least the 10%
threshold (boundary included), and accepts it — given that the script check
and the language-identity check pass — exactly when that fraction is strictly
below 10%. -/
theorem c8_threshold (U : Unicodedata) (D : Cld3) (text language : String) :
    (text.data.length ≤ 10 * nonalpha_count U text →
      validate_sentence_val U D text language = false)
    ∧ (alphabet U text.data = some "LATIN" →
       validate_language D text language = true →
       10 * nonalpha_count U text < text.data.length →
       validate_sentence_val U D text language = true) := by
  constructor
  · intro hge
    unfold validate_sentence_val
    have hlt : ¬ (10 * nonalpha_count U text < text.data.length) := by omega
    simp [hlt]
    intro _ _
    exact hge
  · intro h1 h2 h3
    unfold validate_sentence_val
    simp [h1, h2, h3]
    exact h3

/-- Witness for C8 (amended): a text at exactly the threshold is rejected and
an all-letter text is accepted. -/
theorem c8_threshold_witness :
    validate_sentence_val ascii_udata cld3_stub "abcdefghi." "xx" = false
      ∧ validate_sentence_val ascii_udata cld3_stub "abcdefghij" "xx" = true :=
  ⟨(c8_threshold ascii_udata cld3_stub "abcdefghi." "xx").1 (by decide),
   (c8_threshold ascii_udata cld3_stub "abcdefghij" "xx").2 (by decide) (by decide)
     (by decide)⟩

/-- C9: without the all-corpora flag, `main` evaluates the never-assigned
local variable `corpus` at the `_fetch_corpus` call site (the parsed argument
is `args.corpus`, default `ParaCrawl`), so every single-corpus invocation
fails with an undefined-variable error before extraction starts and nothing
is extracted — contradicting the claim, which describes the clear intent of
the code. -/
theorem c9_single_corpus (cfg : Ctx) (max_lines : Int)
    (corpora : List (Option (List TuItem))) :
    main_run cfg max_lines false corpora =
      (init_state max_lines, some PyErr.unboundLocalError) := rfl

/-- C10: the sentence validator is total — it always returns a verdict and
the non-alphabetic-ratio division is never evaluated with length zero,
because every text without a Latin-script alphabetic character (in particular
the empty string substituted when a unit lacks one of the configured
languages) is rejected by the script pre-filter before the division. -/
theorem c10_script_guard (U : Unicodedata) (D : Cld3) (text language : String) :
    validate_sentence U D text language
        = Except.ok (validate_sentence_val U D text language)
    ∧ ((∀ c ∈ text.data, ¬ latin_letter U c) →
        validate_sentence U D text language = Except.ok false)
    ∧ validate_sentence U D "" language = Except.ok false := by
  refine ⟨validate_sentence_eq_ok U D text language, ?_, rfl⟩
  intro hno
  rw [validate_sentence_eq_ok]
  have halph : alphabet U text.data ≠ some "LATIN" := by
    intro heq
    obtain ⟨c, hc, hl⟩ := alphabet_latin U text.data heq
    exact hno c hc hl
  unfold validate_sentence_val
  have hbeq : (alphabet U text.data == some "LATIN") = false := by
    rw [beq_eq_false_iff_ne]
    exact halph
  rw [hbeq]
  rfl

/-- Witness for C10: a digits-only text reaches no Latin letter and is
rejected without any division. -/
theorem c10_script_guard_witness :
    validate_sentence ascii_udata cld3_stub "123" "xx" = Except.ok false :=
  (c10_script_guard ascii_udata cld3_stub "123" "xx").2.1 (by
    intro c hc
    rintro ⟨hcat, _⟩
    fin_cases hc <;> exact absurd hcat (by decide))
